import Mathlib

/-!
Shallow embedding of the e-commerce backend (src/main.py, src/schemas.py).

Monetary amounts (Python `float`) are modelled as rationals; Python's
`round(x, 2)` is modelled as rounding `x * 100` to the nearest integer with
ties to even (Python's documented rounding mode), divided by 100.
The MongoDB product collection is modelled as an association list from the
canonical ObjectId string to the product document; `find_one` is first-match
lookup and `update_one` updates the first match.
-/

instance exceptDecEq {ε α : Type} [DecidableEq ε] [DecidableEq α] :
    DecidableEq (Except ε α) := fun x y =>
  match x, y with
  | .ok a, .ok b =>
    if h : a = b then .isTrue (by rw [h])
    else .isFalse (by intro hc; cases hc; exact h rfl)
  | .ok _, .error _ => .isFalse (by intro hc; cases hc)
  | .error _, .ok _ => .isFalse (by intro hc; cases hc)
  | .error e, .error e' =>
    if h : e = e' then .isTrue (by rw [h])
    else .isFalse (by intro hc; cases hc; exact h rfl)

namespace ECom

/-- Floor of a rational, computed on the numerator and denominator. -/
def ratFloor (q : ℚ) : ℤ := q.num.fdiv q.den

/-- Python round-half-to-even to the nearest integer. -/
def roundHalfEven (q : ℚ) : ℤ :=
  if q - ratFloor q < 1/2 then ratFloor q
  else if 1/2 < q - ratFloor q then ratFloor q + 1
  else if ratFloor q % 2 = 0 then ratFloor q
  else ratFloor q + 1

/-- Python `round(x, 2)`. -/
def round2 (q : ℚ) : ℚ := (roundHalfEven (q * 100) : ℚ) / 100

/-- Product document (schemas.Product). -/
structure Product where
  title : String
  description : Option String
  price : ℚ
  category : String
  image : Option String
  in_stock : Bool
  stock_qty : Int
deriving DecidableEq

/-- Order line item (schemas.OrderItem). -/
structure OrderItem where
  product_id : String
  title : String
  price : ℚ
  quantity : Int
  image : Option String
deriving DecidableEq

/-- Order document / order request body (schemas.Order; the POST /api/orders
request body is CreateOrderRequest, which is exactly this schema). -/
structure Order where
  customer_name : String
  customer_email : String
  customer_address : String
  items : List OrderItem
  subtotal : ℚ
  shipping : ℚ
  total : ℚ
  status : String
deriving DecidableEq

/-- Pydantic field constraints on OrderItem: price ge 0, quantity ge 1. -/
def OrderItem.schemaOK (it : OrderItem) : Prop :=
  0 ≤ it.price ∧ 1 ≤ it.quantity

instance (it : OrderItem) : Decidable it.schemaOK := by
  unfold OrderItem.schemaOK; infer_instance

/-- Pydantic field constraints on Order: subtotal, shipping, total all ge 0,
and every item well-formed.  FastAPI rejects (HTTP 422) any request body
violating these before `create_order` runs. -/
def Order.schemaOK (o : Order) : Prop :=
  (∀ it ∈ o.items, it.schemaOK) ∧ 0 ≤ o.subtotal ∧ 0 ≤ o.shipping ∧ 0 ≤ o.total

instance (o : Order) : Decidable o.schemaOK := by
  unfold Order.schemaOK; infer_instance

/-- The persisted state: the "product" and "order" collections. -/
structure Store where
  products : List (String × Product)
  orders : List Order
deriving DecidableEq

def isHexChar (c : Char) : Bool :=
  c.isDigit || ('a' ≤ c && c ≤ 'f') || ('A' ≤ c && c ≤ 'F')

/-- bson `ObjectId(s)` on a string argument: succeeds exactly on 24-character
hexadecimal strings; the canonical (stored / `str`-rendered) form is lowercase.
A malformed string raises, modelled as `none`. -/
def parseObjectId (s : String) : Option String :=
  if s.length = 24 ∧ s.data.all isHexChar then
    some (String.mk (s.data.map Char.toLower))
  else none

/-- `db["product"].find_one({"_id": oid})`: first match in the collection. -/
def lookupFirst : List (String × Product) → String → Option Product
  | [], _ => none
  | (k, p) :: rest, key => if k = key then some p else lookupFirst rest key

def findProduct (st : Store) (k : String) : Option Product :=
  lookupFirst st.products k

/-- Errors raised by the handlers (HTTPException status/detail pairs). -/
inductive Err where
  | emptyOrder
  | invalidProductId (pid : String)
  | productNotFound (pid : String)
  | insufficientStock (title : String)
  | invalidIdPlain
  | notFoundPlain
deriving DecidableEq

/-- HTTP status code of each error. -/
def Err.status : Err → Nat
  | .emptyOrder => 400
  | .invalidProductId _ => 400
  | .insufficientStock _ => 400
  | .invalidIdPlain => 400
  | .productNotFound _ => 404
  | .notFoundPlain => 404

/-- HTTP detail string of each error. -/
def Err.detail : Err → String
  | .emptyOrder => "No items in order"
  | .invalidProductId pid => "Invalid product id: " ++ pid
  | .productNotFound pid => "Product not found: " ++ pid
  | .insufficientStock t => "Insufficient stock for " ++ t
  | .invalidIdPlain => "Invalid product id"
  | .notFoundPlain => "Product not found"

/-- GET /api/products/{product_id} (main.get_product).  The function only
reads the store, so it is typed without a result store: it has no side
effects by construction.  (The HTTP layer then applies serialize_doc.) -/
def get_product (product_id : String) (st : Store) : Except Err Product :=
  match parseObjectId product_id with
  | none => .error .invalidIdPlain
  | some oid =>
    match findProduct st oid with
    | none => .error .notFoundPlain
    | some doc => .ok doc

/-- The sanitized OrderItem snapshot built at main.py lines 143-149:
product_id is `str(prod["_id"])` (the canonical id), and title/price/image
come from the product record, never from the request. -/
def sanitize (prod : Product) (k : String) (q : Int) : OrderItem :=
  { product_id := k
    title := prod.title
    price := prod.price
    quantity := q
    image := prod.image }

/-- The per-item validation loop of create_order (main.py lines 131-149).
Loop state: `sub` is `computed_subtotal`, `acc` the reversed
`sanitized_items`. -/
def processItems (st : Store) : List OrderItem → ℚ → List OrderItem →
    Except Err (ℚ × List OrderItem)
  | [], sub, acc => .ok (sub, acc.reverse)
  | item :: rest, sub, acc =>
    match parseObjectId item.product_id with
    | none => .error (.invalidProductId item.product_id)
    | some oid =>
      match findProduct st oid with
      | none => .error (.productNotFound item.product_id)
      | some prod =>
        if prod.in_stock = false ∨ prod.stock_qty < item.quantity then
          .error (.insufficientStock prod.title)
        else
          processItems st rest (sub + prod.price * (item.quantity : ℚ))
            (sanitize prod oid item.quantity :: acc)

/-- `update_one({"_id": key}, {"$inc": {"stock_qty": d}})`: adjusts the first
matching document. -/
def updateStock : List (String × Product) → String → Int → List (String × Product)
  | [], _, _ => []
  | (k, p) :: rest, key, d =>
    if k = key then (k, { p with stock_qty := p.stock_qty + d }) :: rest
    else (k, p) :: updateStock rest key d

/-- The stock-decrement loop of create_order (main.py lines 169-170). -/
def decStock : List OrderItem → List (String × Product) → List (String × Product)
  | [], ps => ps
  | it :: rest, ps => decStock rest (updateStock ps it.product_id (-it.quantity))

/-- POST /api/orders (main.create_order).  Returns the handler result (error,
or the created order document) together with the resulting store, so that
"no store writes on failure" is expressible.  The request has already passed
FastAPI/pydantic schema validation (`Order.schemaOK`) when this runs. -/
def create_order (order : Order) (st : Store) : Except Err Order × Store :=
  if order.items = [] then (.error .emptyOrder, st)
  else
    match processItems st order.items 0 [] with
    | .error e => (.error e, st)
    | .ok (computed_subtotal, sanitized_items) =>
      let shipping : ℚ := if order.shipping = 0 then 0 else order.shipping
      let total := round2 (computed_subtotal + shipping)
      let order_doc : Order :=
        { customer_name := order.customer_name
          customer_email := order.customer_email
          customer_address := order.customer_address
          items := sanitized_items
          subtotal := round2 computed_subtotal
          shipping := round2 shipping
          total := total
          status := "processing" }
      let st1 : Store := { st with orders := st.orders ++ [order_doc] }
      let st2 : Store := { st1 with products := decStock sanitized_items st1.products }
      (.ok order_doc, st2)

/-- A requested item that passes all three per-item checks of the loop. -/
def itemOK (st : Store) (it : OrderItem) : Prop :=
  ∃ k prod, parseObjectId it.product_id = some k ∧ findProduct st k = some prod ∧
    prod.in_stock = true ∧ it.quantity ≤ prod.stock_qty

/-- Unrounded sum of price * quantity over a list of line items. -/
def itemsTotal : List OrderItem → ℚ
  | [] => 0
  | it :: rest => it.price * (it.quantity : ℚ) + itemsTotal rest

/-- Total quantity the sanitized items charge against product key `k`. -/
def qtyOrdered (k : String) : List OrderItem → Int
  | [] => 0
  | it :: rest => (if it.product_id = k then it.quantity else 0) + qtyOrdered k rest

/-- Total quantity the request orders of the product with canonical id `k`. -/
def qtyRequested (k : String) : List OrderItem → Int
  | [] => 0
  | it :: rest =>
    (if parseObjectId it.product_id = some k then it.quantity else 0) + qtyRequested k rest

/-! ### Rounding facts -/

theorem ratFloor_eq_floor (q : ℚ) : ratFloor q = ⌊q⌋ := by
  rw [Rat.floor_def, ratFloor, Int.fdiv_eq_ediv]
  exact Int.ofNat_nonneg q.den

theorem roundHalfEven_nonneg {q : ℚ} (h : 0 ≤ q) : 0 ≤ roundHalfEven q := by
  have h0 : 0 ≤ ratFloor q := by
    rw [ratFloor_eq_floor]
    exact Int.le_floor.mpr (by exact_mod_cast h)
  unfold roundHalfEven
  split_ifs <;> omega

theorem round2_nonneg {q : ℚ} (h : 0 ≤ q) : 0 ≤ round2 q := by
  unfold round2
  have := roundHalfEven_nonneg (q := q * 100) (by positivity)
  apply div_nonneg _ (by norm_num)
  exact_mod_cast this

/-- The result of `round2` has at most two decimal places. -/
theorem round2_two_decimals (q : ℚ) : (100 * round2 q).den = 1 := by
  unfold round2
  rw [mul_comm, div_mul_cancel₀ _ (by norm_num : (100 : ℚ) ≠ 0)]
  exact Rat.den_intCast _

/-! ### Store update facts -/

theorem lookupFirst_updateStock (ps : List (String × Product)) (key : String) (d : Int)
    (x : String) :
    lookupFirst (updateStock ps key d) x =
      if x = key then
        (lookupFirst ps x).map (fun p => { p with stock_qty := p.stock_qty + d })
      else lookupFirst ps x := by
  induction ps with
  | nil => simp [updateStock, lookupFirst]
  | cons kv rest ih =>
    obtain ⟨k0, p0⟩ := kv
    by_cases h0 : k0 = key
    · subst h0
      by_cases hx : x = k0
      · subst hx
        simp [updateStock, lookupFirst]
      · simp [updateStock, lookupFirst, hx, Ne.symm hx]
    · by_cases hx : k0 = x
      · have : ¬ x = key := fun hc => h0 (hx.trans hc)
        simp [updateStock, lookupFirst, h0, hx, this]
      · simp [updateStock, lookupFirst, h0, hx, ih]

theorem lookupFirst_decStock (items : List OrderItem) :
    ∀ (ps : List (String × Product)) (x : String),
      lookupFirst (decStock items ps) x =
        (lookupFirst ps x).map
          (fun p => { p with stock_qty := p.stock_qty - qtyOrdered x items }) := by
  induction items with
  | nil =>
    intro ps x
    cases h : lookupFirst ps x <;> simp [decStock, qtyOrdered, h]
  | cons it rest ih =>
    intro ps x
    rw [decStock, ih, lookupFirst_updateStock]
    by_cases hx : x = it.product_id
    · rw [if_pos hx]
      cases h : lookupFirst ps x
      · simp [qtyOrdered, hx.symm, h]
      · simp [qtyOrdered, hx.symm, h, Option.map_map, Function.comp]
        omega
    · rw [if_neg hx]
      have hne : ¬ it.product_id = x := fun hc => hx hc.symm
      cases h : lookupFirst ps x <;> simp [qtyOrdered, hne, h]

/-! ### Characterization of the per-item validation loop -/

/-- The relation between a requested item and the sanitized snapshot the loop
builds for it. -/
def sanitizedFrom (st : Store) (rit sit : OrderItem) : Prop :=
  ∃ k prod, parseObjectId rit.product_id = some k ∧ findProduct st k = some prod ∧
    prod.in_stock = true ∧ rit.quantity ≤ prod.stock_qty ∧
    sit = sanitize prod k rit.quantity

theorem processItems_ok (st : Store) :
    ∀ (items : List OrderItem) (sub : ℚ) (acc : List OrderItem) (s : ℚ)
      (out : List OrderItem),
    processItems st items sub acc = .ok (s, out) →
    ∃ news, out = acc.reverse ++ news ∧ s = sub + itemsTotal news ∧
      List.Forall₂ (sanitizedFrom st) items news := by
  intro items
  induction items with
  | nil =>
    intro sub acc s out h
    simp only [processItems, Except.ok.injEq, Prod.mk.injEq] at h
    refine ⟨[], by simp [← h.2], by simp [← h.1, itemsTotal], List.Forall₂.nil⟩
  | cons item rest ih =>
    intro sub acc s out h
    cases hp : parseObjectId item.product_id with
    | none =>
      simp only [processItems, hp] at h
      exact Except.noConfusion h
    | some k =>
      cases hf : findProduct st k with
      | none =>
        simp only [processItems, hp, hf] at h
        exact Except.noConfusion h
      | some prod =>
        by_cases hc : prod.in_stock = false ∨ prod.stock_qty < item.quantity
        · simp only [processItems, hp, hf, if_pos hc] at h
          exact Except.noConfusion h
        · simp only [processItems, hp, hf, if_neg hc] at h
          obtain ⟨news, hout, hs, hF⟩ := ih _ _ _ _ h
          push_neg at hc
          refine ⟨sanitize prod k item.quantity :: news, ?_, ?_, ?_⟩
          · rw [hout]; simp
          · rw [hs, itemsTotal]; simp [sanitize]; ring
          · exact List.Forall₂.cons
              ⟨k, prod, hp, hf, eq_true_of_ne_false hc.1, hc.2, rfl⟩ hF

theorem processItems_err (st : Store) :
    ∀ (items : List OrderItem) (sub : ℚ) (acc : List OrderItem) (e : Err),
    processItems st items sub acc = .error e →
    ∃ pre it post, items = pre ++ it :: post ∧ (∀ p ∈ pre, itemOK st p) ∧
      ((parseObjectId it.product_id = none ∧ e = .invalidProductId it.product_id) ∨
       (∃ k, parseObjectId it.product_id = some k ∧ findProduct st k = none ∧
          e = .productNotFound it.product_id) ∨
       (∃ k prod, parseObjectId it.product_id = some k ∧ findProduct st k = some prod ∧
          (prod.in_stock = false ∨ prod.stock_qty < it.quantity) ∧
          e = .insufficientStock prod.title)) := by
  intro items
  induction items with
  | nil =>
    intro sub acc e h
    simp only [processItems] at h
    exact Except.noConfusion h
  | cons item rest ih =>
    intro sub acc e h
    cases hp : parseObjectId item.product_id with
    | none =>
      simp only [processItems, hp, Except.error.injEq] at h
      exact ⟨[], item, rest, rfl, by simp, Or.inl ⟨hp, h.symm⟩⟩
    | some k =>
      cases hf : findProduct st k with
      | none =>
        simp only [processItems, hp, hf, Except.error.injEq] at h
        exact ⟨[], item, rest, rfl, by simp, Or.inr (Or.inl ⟨k, hp, hf, h.symm⟩)⟩
      | some prod =>
        by_cases hc : prod.in_stock = false ∨ prod.stock_qty < item.quantity
        · simp only [processItems, hp, hf, if_pos hc, Except.error.injEq] at h
          exact ⟨[], item, rest, rfl, by simp,
            Or.inr (Or.inr ⟨k, prod, hp, hf, hc, h.symm⟩)⟩
        · simp only [processItems, hp, hf, if_neg hc] at h
          obtain ⟨pre, it, post, hsplit, hpre, hcase⟩ := ih _ _ _ h
          push_neg at hc
          refine ⟨item :: pre, it, post, by rw [hsplit]; rfl, ?_, hcase⟩
          intro p hm
          rcases List.mem_cons.mp hm with h1 | h2
          · subst h1
            exact ⟨k, prod, hp, hf, eq_true_of_ne_false hc.1, hc.2⟩
          · exact hpre p h2

theorem processItems_reach (st : Store) :
    ∀ (pre : List OrderItem), (∀ p ∈ pre, itemOK st p) →
    ∀ (rest : List OrderItem) (sub : ℚ) (acc : List OrderItem),
    ∃ sub' acc', processItems st (pre ++ rest) sub acc = processItems st rest sub' acc' := by
  intro pre
  induction pre with
  | nil => intro _ rest sub acc; exact ⟨sub, acc, rfl⟩
  | cons p pre' ih =>
    intro hOK rest sub acc
    obtain ⟨k, prod, hp, hf, hin, hq⟩ := hOK p (List.mem_cons_self p pre')
    have hc : ¬ (prod.in_stock = false ∨ prod.stock_qty < p.quantity) := by
      push_neg
      exact ⟨by simp [hin], hq⟩
    have step : processItems st ((p :: pre') ++ rest) sub acc =
        processItems st (pre' ++ rest) (sub + prod.price * (p.quantity : ℚ))
          (sanitize prod k p.quantity :: acc) := by
      simp only [List.cons_append, processItems, hp, hf, if_neg hc]
      rfl
    rw [step]
    exact ih (fun q hq' => hOK q (List.mem_cons_of_mem p hq')) rest _ _

theorem processItems_congr (st : Store) :
    ∀ {items1 items2 : List OrderItem},
    List.Forall₂ (fun a b => a.product_id = b.product_id ∧ a.quantity = b.quantity)
      items1 items2 →
    ∀ (sub : ℚ) (acc : List OrderItem),
    processItems st items1 sub acc = processItems st items2 sub acc := by
  intro items1 items2 hF
  induction hF with
  | nil => intro sub acc; rfl
  | @cons a b l1 l2 hab hrest ih =>
    intro sub acc
    obtain ⟨hpid, hqty⟩ := hab
    cases hp : parseObjectId b.product_id with
    | none => simp only [processItems, hpid, hp]
    | some k =>
      cases hf : findProduct st k with
      | none => simp only [processItems, hpid, hp, hf]
      | some prod =>
        by_cases hc : prod.in_stock = false ∨ prod.stock_qty < b.quantity
        · simp only [processItems, hpid, hqty, hp, hf, if_pos hc]
        · simp only [processItems, hpid, hqty, hp, hf, if_neg hc]
          exact ih _ _

/-! ### Characterization of create_order -/

theorem create_order_ok {req : Order} {st : Store} {o : Order} {st' : Store}
    (h : create_order req st = (.ok o, st')) :
    List.Forall₂ (sanitizedFrom st) req.items o.items ∧
    o.customer_name = req.customer_name ∧
    o.customer_email = req.customer_email ∧
    o.customer_address = req.customer_address ∧
    o.subtotal = round2 (itemsTotal o.items) ∧
    o.shipping = round2 req.shipping ∧
    o.total = round2 (itemsTotal o.items + req.shipping) ∧
    o.status = "processing" ∧
    st'.orders = st.orders ++ [o] ∧
    st'.products = decStock o.items st.products := by
  rw [create_order] at h
  by_cases hnil : req.items = []
  · rw [if_pos hnil] at h
    simp at h
  · rw [if_neg hnil] at h
    cases hpi : processItems st req.items 0 [] with
    | error e =>
      rw [hpi] at h
      simp at h
    | ok pr =>
      obtain ⟨cs, sanitized⟩ := pr
      rw [hpi] at h
      dsimp only at h
      obtain ⟨h1, h2⟩ := Prod.mk.inj h
      obtain rfl := (Except.ok.inj h1).symm
      obtain rfl := h2.symm
      obtain ⟨news, hout, hs, hF⟩ := processItems_ok st req.items 0 [] cs sanitized hpi
      simp only [List.reverse_nil, List.nil_append] at hout
      subst hout
      have hship : (if req.shipping = 0 then (0 : ℚ) else req.shipping) = req.shipping := by
        split_ifs with h0
        · rw [h0]
        · rfl
      refine ⟨hF, rfl, rfl, rfl, ?_, ?_, ?_, rfl, rfl, rfl⟩
      · show round2 cs = _
        rw [hs, zero_add]
      · show round2 (if req.shipping = 0 then (0 : ℚ) else req.shipping) = _
        rw [hship]
      · show round2 (cs + if req.shipping = 0 then (0 : ℚ) else req.shipping) = _
        rw [hs, zero_add, hship]

theorem create_order_err_no_writes (req : Order) (st : Store) (e : Err)
    (h : (create_order req st).1 = .error e) : (create_order req st).2 = st := by
  rw [create_order] at h ⊢
  by_cases hnil : req.items = []
  · rw [if_pos hnil]
  · rw [if_neg hnil] at h ⊢
    cases hpi : processItems st req.items 0 [] with
    | error e' => rfl
    | ok pr =>
      obtain ⟨cs, sanitized⟩ := pr
      rw [hpi] at h
      dsimp only at h
      exact Except.noConfusion h

theorem create_order_error_at {req : Order} {st : Store}
    {pre : List OrderItem} {it : OrderItem} {post : List OrderItem}
    (hitems : req.items = pre ++ it :: post) (hpre : ∀ p ∈ pre, itemOK st p) :
    (parseObjectId it.product_id = none →
      create_order req st = (.error (.invalidProductId it.product_id), st)) ∧
    (∀ k, parseObjectId it.product_id = some k → findProduct st k = none →
      create_order req st = (.error (.productNotFound it.product_id), st)) ∧
    (∀ k prod, parseObjectId it.product_id = some k → findProduct st k = some prod →
      (prod.in_stock = false ∨ prod.stock_qty < it.quantity) →
      create_order req st = (.error (.insufficientStock prod.title), st)) := by
  have hnil : ¬ req.items = [] := by
    rw [hitems]
    exact List.append_ne_nil_of_right_ne_nil pre (List.cons_ne_nil it post)
  obtain ⟨sub', acc', hreach⟩ := processItems_reach st pre hpre (it :: post) 0 []
  have hco : ∀ e : Err, processItems st (it :: post) sub' acc' = .error e →
      create_order req st = (.error e, st) := by
    intro e he
    rw [create_order, if_neg hnil, hitems, hreach, he]
  refine ⟨?_, ?_, ?_⟩
  · intro hp
    exact hco _ (by simp only [processItems, hp])
  · intro k hp hf
    exact hco _ (by simp only [processItems, hp, hf])
  · intro k prod hp hf hc
    exact hco _ (by simp only [processItems, hp, hf, if_pos hc])

theorem create_order_insufficient_iff (req : Order) (st : Store) (t : String) :
    (create_order req st).1 = .error (.insufficientStock t) ↔
      ∃ pre it post k prod, req.items = pre ++ it :: post ∧ (∀ p ∈ pre, itemOK st p) ∧
        parseObjectId it.product_id = some k ∧ findProduct st k = some prod ∧
        (prod.in_stock = false ∨ prod.stock_qty < it.quantity) ∧ t = prod.title := by
  constructor
  · intro h
    rw [create_order] at h
    by_cases hnil : req.items = []
    · rw [if_pos hnil] at h
      simp at h
    · rw [if_neg hnil] at h
      cases hpi : processItems st req.items 0 [] with
      | ok pr =>
        obtain ⟨cs, sanitized⟩ := pr
        rw [hpi] at h
        dsimp only at h
        simp at h
      | error e =>
        rw [hpi] at h
        dsimp only at h
        obtain rfl := (Except.error.inj h).symm
        obtain ⟨pre, it, post, hsplit, hpre, hcase⟩ :=
          processItems_err st req.items 0 [] _ hpi
        rcases hcase with ⟨_, hbad⟩ | ⟨k, _, _, hbad⟩ | ⟨k, prod, hp, hf, hc, he⟩
        · exact absurd hbad.symm (by simp)
        · exact absurd hbad.symm (by simp)
        · obtain rfl := (Err.insufficientStock.inj he).symm
          exact ⟨pre, it, post, k, prod, hsplit, hpre, hp, hf, hc, rfl⟩
  · rintro ⟨pre, it, post, k, prod, hsplit, hpre, hp, hf, hc, ht⟩
    subst ht
    rw [(create_order_error_at hsplit hpre).2.2 k prod hp hf hc]

theorem qtyOrdered_eq_qtyRequested {st : Store} :
    ∀ {items news : List OrderItem}, List.Forall₂ (sanitizedFrom st) items news →
    ∀ (x : String), qtyOrdered x news = qtyRequested x items := by
  intro items news hF
  induction hF with
  | nil => intro x; rfl
  | @cons a b l1 l2 hab hrest ih =>
    intro x
    obtain ⟨k, prod, hp, _, _, _, hb⟩ := hab
    subst hb
    simp only [qtyOrdered, qtyRequested, sanitize, ih x, hp]
    by_cases hk : k = x
    · subst hk
      simp
    · rw [if_neg hk, if_neg (by simp [hk])]

theorem create_order_congr (st : Store) (r1 r2 : Order)
    (hn : r2.customer_name = r1.customer_name)
    (he : r2.customer_email = r1.customer_email)
    (ha : r2.customer_address = r1.customer_address)
    (hs : r2.shipping = r1.shipping)
    (hF : List.Forall₂ (fun a b => a.product_id = b.product_id ∧ a.quantity = b.quantity)
      r1.items r2.items) :
    create_order r2 st = create_order r1 st := by
  by_cases h1 : r1.items = []
  · have h2 : r2.items = [] := by
      rw [h1] at hF
      exact (List.forall₂_nil_left_iff.mp hF)
    rw [create_order, if_pos h2, create_order, if_pos h1]
  · have h2 : ¬ r2.items = [] := by
      intro hc
      rw [hc] at hF
      exact h1 (List.forall₂_nil_right_iff.mp hF)
    rw [create_order, if_neg h2, create_order, if_neg h1,
      processItems_congr st hF 0 []]
    cases hpi : processItems st r2.items 0 [] with
    | error e => rfl
    | ok pr =>
      obtain ⟨cs, sanitized⟩ := pr
      dsimp only
      rw [hn, he, ha, hs]

/-! ### serialize_doc (main.py lines 22-33) -/

/-- A BSON/JSON value as stored in a MongoDB document.  A datetime value is
abstracted by its ISO-8601 text (the string `isoformat()` returns); an
ObjectId value by its canonical hex string (the string `str()` returns). -/
inductive BVal where
  | str (s : String)
  | intV (n : Int)
  | numV (q : ℚ)
  | boolV (b : Bool)
  | oidV (hex : String)
  | dtV (iso : String)
  | nullV
deriving DecidableEq

/-- Python `hasattr(v, "isoformat")`: true exactly for date/time values. -/
def hasIsoformat : BVal → Bool
  | .dtV _ => true
  | _ => false

/-- The `isoformat()` rendering of a date/time value. -/
def isoformat : BVal → String
  | .dtV iso => iso
  | _ => ""

/-- Python `str(v)`.  The API only ever applies this to the `_id` field,
whose value is an ObjectId rendered as its hex string; the remaining cases
model `str` on the other value forms. -/
def pyStr : BVal → String
  | .str s => s
  | .intV n => toString n
  | .numV q => toString q
  | .boolV b => if b then "True" else "False"
  | .oidV hex => hex
  | .dtV iso => iso
  | .nullV => "None"

/-- main.serialize_doc: a document is an ordered list of key/value pairs
(MongoDB documents have unique keys).  The empty-document guard
(`if not doc: return doc`) is the nil case. -/
def serialize_doc : List (String × BVal) → List (String × BVal)
  | [] => []
  | (k, v) :: rest =>
    (if k = "_id" then ("id", .str (pyStr v))
     else if hasIsoformat v then (k, .str (isoformat v))
     else (k, v)) :: serialize_doc rest

/-- The per-entry transformation serialize_doc applies. -/
def serializeEntry (kv : String × BVal) : String × BVal :=
  if kv.1 = "_id" then ("id", .str (pyStr kv.2))
  else if hasIsoformat kv.2 then (kv.1, .str (isoformat kv.2))
  else kv

theorem serialize_doc_eq_map (doc : List (String × BVal)) :
    serialize_doc doc = doc.map serializeEntry := by
  induction doc with
  | nil => rfl
  | cons kv rest ih =>
    obtain ⟨k, v⟩ := kv
    simp only [serialize_doc, List.map_cons, ih, serializeEntry]

/-! ### Concrete fixtures used by witnesses and counterexamples -/

def pidA : String := "aaaaaaaaaaaaaaaaaaaaaaaa"

def pidB : String := "bbbbbbbbbbbbbbbbbbbbbbbb"

def pidC : String := "cccccccccccccccccccccccc"

def pidD : String := "dddddddddddddddddddddddd"

def pidE : String := "eeeeeeeeeeeeeeeeeeeeeeee"

def pidF : String := "ffffffffffffffffffffffff"

def prodTee : Product :=
  { title := "Classic Tee", description := some "Soft cotton t-shirt",
    price := 19.99, category := "Apparel", image := some "img-tee",
    in_stock := true, stock_qty := 100 }

def st0 : Store := { products := [(pidA, prodTee)], orders := [] }

def reqItem : OrderItem :=
  { product_id := pidA, title := "x", price := 1, quantity := 3, image := none }

def req0 : Order :=
  { customer_name := "Ada", customer_email := "ada@example.com",
    customer_address := "1 Main St", items := [reqItem],
    subtotal := 0, shipping := 5, total := 0, status := "new" }

/-- req0 with client-tampered item price/title/image. -/
def reqItemV : OrderItem :=
  { product_id := pidA, title := "HACKED", price := 999, quantity := 3,
    image := some "evil" }

def req0v : Order := { req0 with items := [reqItemV] }

def sampleOrder : Order :=
  { customer_name := "Ada", customer_email := "ada@example.com",
    customer_address := "1 Main St",
    items := [{ product_id := pidA, title := "Classic Tee", price := 19.99,
                quantity := 3, image := some "img-tee" }],
    subtotal := 59.97, shipping := 5, total := 64.97, status := "processing" }

def sampleStore1 : Store :=
  { products := [(pidA, { prodTee with stock_qty := 97 })],
    orders := [sampleOrder] }

theorem sample_run : create_order req0 st0 = (.ok sampleOrder, sampleStore1) := by
  have hp : parseObjectId pidA = some pidA := by decide
  norm_num [create_order, processItems, hp, findProduct, lookupFirst, sanitize,
    decStock, updateStock, req0, st0, reqItem, prodTee, sampleOrder, sampleStore1,
    round2, roundHalfEven, ratFloor, Int.fdiv_eq_ediv]

def c1prod : Product :=
  { title := "Trinket", description := none, price := 1/250, category := "Misc",
    image := none, in_stock := true, stock_qty := 10 }

def c1st : Store := { products := [(pidB, c1prod)], orders := [] }

def c1item : OrderItem :=
  { product_id := pidB, title := "Trinket", price := 1/250, quantity := 1,
    image := none }

def c1req : Order :=
  { customer_name := "Bo", customer_email := "bo@example.com",
    customer_address := "2 Oak Ave", items := [c1item],
    subtotal := 0, shipping := 1/250, total := 0, status := "new" }

def c1order : Order :=
  { customer_name := "Bo", customer_email := "bo@example.com",
    customer_address := "2 Oak Ave",
    items := [{ product_id := pidB, title := "Trinket", price := 1/250,
                quantity := 1, image := none }],
    subtotal := 0, shipping := 0, total := 1/100, status := "processing" }

def c2prod : Product :=
  { title := "Gadget", description := none, price := 1, category := "Misc",
    image := none, in_stock := true, stock_qty := 10 }

def c2st : Store := { products := [(pidC, c2prod)], orders := [] }

def c2item1 : OrderItem :=
  { product_id := pidC, title := "Gadget", price := 1, quantity := 3, image := none }

def c2item2 : OrderItem :=
  { product_id := pidC, title := "Gadget", price := 1, quantity := 4, image := none }

def c2req : Order :=
  { customer_name := "Cy", customer_email := "cy@example.com",
    customer_address := "3 Elm Rd", items := [c2item1, c2item2],
    subtotal := 0, shipping := 0, total := 0, status := "new" }

def c2order : Order :=
  { customer_name := "Cy", customer_email := "cy@example.com",
    customer_address := "3 Elm Rd",
    items := [{ product_id := pidC, title := "Gadget", price := 1, quantity := 3,
                image := none },
              { product_id := pidC, title := "Gadget", price := 1, quantity := 4,
                image := none }],
    subtotal := 7, shipping := 0, total := 7, status := "processing" }

def c2stAfter : Store :=
  { products := [(pidC, { c2prod with stock_qty := 3 })], orders := [c2order] }

theorem c2_run : create_order c2req c2st = (.ok c2order, c2stAfter) := by
  have hp : parseObjectId pidC = some pidC := by decide
  norm_num [create_order, processItems, hp, findProduct, lookupFirst, sanitize,
    decStock, updateStock, c2req, c2st, c2item1, c2item2, c2prod, c2order, c2stAfter,
    round2, roundHalfEven, ratFloor, Int.fdiv_eq_ediv, List.cons_ne_nil]

/-! ### Claims -/

/-- Claim C1, as stated, is false: the stored total is
`round(raw_subtotal + raw_shipping, 2)` computed from the unrounded values,
which can differ from `round(stored_subtotal + stored_shipping, 2)`.
With a product priced 0.004 and shipping 0.004, the stored order has
subtotal 0, shipping 0, but total 0.01 ≠ round(0 + 0, 2). -/
theorem c1_counterexample :
    (create_order c1req c1st).1 = .ok c1order ∧
    c1order.total ≠ round2 (c1order.subtotal + c1order.shipping) := by
  constructor
  · have hp : parseObjectId pidB = some pidB := by decide
    norm_num [create_order, processItems, hp, findProduct, lookupFirst, sanitize,
      decStock, updateStock, c1req, c1st, c1item, c1prod, c1order,
      round2, roundHalfEven, ratFloor, Int.fdiv_eq_ediv]
  · norm_num [c1order, round2, roundHalfEven, ratFloor, Int.fdiv_eq_ediv]

/-- Claim C1 (amended): for every accepted order, the stored subtotal is
`round2` of the unrounded per-item sum, the stored shipping is `round2` of the
raw shipping input, and the stored total is `round2` of the sum of the
unrounded per-item sum and the raw (unrounded) shipping input. -/
theorem c1_totals {req : Order} {st : Store} {o : Order} {st' : Store}
    (h : create_order req st = (.ok o, st')) :
    o.subtotal = round2 (itemsTotal o.items) ∧
    o.shipping = round2 req.shipping ∧
    o.total = round2 (itemsTotal o.items + req.shipping) := by
  obtain ⟨-, -, -, -, h5, h6, h7, -, -, -⟩ := create_order_ok h
  exact ⟨h5, h6, h7⟩

/-- Witness for C1 (amended) at the spec's worked example. -/
theorem c1_totals_witness :
    sampleOrder.subtotal = round2 (itemsTotal sampleOrder.items) ∧
    sampleOrder.shipping = round2 req0.shipping ∧
    sampleOrder.total = round2 (itemsTotal sampleOrder.items + req0.shipping) :=
  c1_totals sample_run

/-- Claim C2, as stated, is false when one product is referenced by two line
items: each line item decrements the stock, so the final stock is S minus the
total ordered quantity, not S − Q for the single item's Q.  Here S = 10,
the two items order 3 and 4, and the final stock is 3, not 10 − 3. -/
theorem c2_counterexample :
    create_order c2req c2st = (.ok c2order, c2stAfter) ∧
    c2req.items.head? = some c2item1 ∧ c2item1.quantity = 3 ∧
    parseObjectId c2item1.product_id = some pidC ∧
    (findProduct c2st pidC).map Product.stock_qty = some 10 ∧
    (findProduct c2stAfter pidC).map Product.stock_qty = some 3 ∧
    some (3 : ℤ) ≠ some (10 - 3 : ℤ) := by
  refine ⟨c2_run, rfl, rfl, by decide, ?_, ?_, by decide⟩
  · norm_num [findProduct, lookupFirst, c2st, c2prod]
  · norm_num [findProduct, lookupFirst, c2stAfter, c2prod]

/-- Claim C2 (amended): after a successful order, every product's stock is its
previous stock minus the total quantity the request ordered of that product
across all line items. -/
theorem c2_stock_decrement {req : Order} {st : Store} {o : Order} {st' : Store}
    (h : create_order req st = (.ok o, st')) (k : String) (prod : Product)
    (hf : findProduct st k = some prod) :
    findProduct st' k =
      some { prod with stock_qty := prod.stock_qty - qtyRequested k req.items } := by
  obtain ⟨hF, -, -, -, -, -, -, -, -, hprods⟩ := create_order_ok h
  rw [findProduct, hprods, lookupFirst_decStock, ← findProduct, hf,
    qtyOrdered_eq_qtyRequested hF k]
  rfl

/-- Witness for C2 (amended) at the spec's worked example: stock 100 − 3 = 97. -/
theorem c2_stock_decrement_witness :
    findProduct sampleStore1 pidA =
      some { prodTee with stock_qty := prodTee.stock_qty - qtyRequested pidA req0.items } :=
  c2_stock_decrement sample_run pidA prodTee (by simp [findProduct, lookupFirst, st0])

/-- Claim C5: an empty item list is rejected with EmptyOrder before anything
else, and the store is unchanged. -/
theorem c5_empty_order (req : Order) (st : Store) (h : req.items = []) :
    create_order req st = (.error .emptyOrder, st) := by
  rw [create_order, if_pos h]

def emptyReq : Order :=
  { customer_name := "Eve", customer_email := "eve@example.com",
    customer_address := "5 Pine Ct", items := [],
    subtotal := 0, shipping := 0, total := 0, status := "new" }

/-- Witness for C5. -/
theorem c5_empty_order_witness :
    create_order emptyReq st0 = (.error .emptyOrder, st0) :=
  c5_empty_order emptyReq st0 rfl

def c3prod : Product :=
  { title := "Sneakers", description := none, price := 2, category := "Footwear",
    image := none, in_stock := true, stock_qty := 2 }

def c3st : Store := { products := [(pidF, c3prod)], orders := [] }

def c3item1 : OrderItem :=
  { product_id := pidD, title := "Ghost", price := 1, quantity := 1, image := none }

def c3item2 : OrderItem :=
  { product_id := pidF, title := "Sneakers", price := 2, quantity := 5, image := none }

def c3req : Order :=
  { customer_name := "Dee", customer_email := "dee@example.com",
    customer_address := "4 Fir Way", items := [c3item1, c3item2],
    subtotal := 0, shipping := 0, total := 0, status := "new" }

/-- Claim C3, as stated ("for every requested item ... iff ..."), is false:
here the second requested item's product exists with stock 2 < quantity 5,
yet the operation does not fail with InsufficientStock at all — the first
item's ProductNotFound failure aborts the request first. -/
theorem c3_counterexample :
    create_order c3req c3st = (.error (.productNotFound pidD), c3st) ∧
    c3req.items = [c3item1, c3item2] ∧
    parseObjectId c3item2.product_id = some pidF ∧
    findProduct c3st pidF = some c3prod ∧
    (c3prod.in_stock = false ∨ c3prod.stock_qty < c3item2.quantity) ∧
    (∀ t, Err.productNotFound pidD ≠ Err.insufficientStock t) := by
  refine ⟨?_, rfl, by decide, ?_, Or.inr (by norm_num [c3prod, c3item2]), fun t => by simp⟩
  · have hp : parseObjectId pidD = some pidD := by decide
    have hne : pidF ≠ pidD := by decide
    norm_num [create_order, processItems, hp, hne, findProduct, lookupFirst,
      c3req, c3st, c3item1, c3item2, List.cons_ne_nil]
  · simp [findProduct, lookupFirst, c3st]

/-- Claim C3 (amended): the order fails with InsufficientStock naming title t
iff some item, all of whose predecessors validate, references an existing
product whose in_stock is false or whose stock_qty is below the requested
quantity, and t is that product's title; and on that failure the store (hence
every product's stock_qty) is unchanged. -/
theorem c3_insufficient_stock (req : Order) (st : Store) (t : String) :
    ((create_order req st).1 = .error (.insufficientStock t) ↔
      ∃ pre it post k prod, req.items = pre ++ it :: post ∧ (∀ p ∈ pre, itemOK st p) ∧
        parseObjectId it.product_id = some k ∧ findProduct st k = some prod ∧
        (prod.in_stock = false ∨ prod.stock_qty < it.quantity) ∧ t = prod.title) ∧
    ((create_order req st).1 = .error (.insufficientStock t) →
      (create_order req st).2 = st) :=
  ⟨create_order_insufficient_iff req st t, create_order_err_no_writes req st _⟩

def c3wreq : Order :=
  { customer_name := "Dee", customer_email := "dee@example.com",
    customer_address := "4 Fir Way", items := [c3item2],
    subtotal := 0, shipping := 0, total := 0, status := "new" }

/-- Witness for C3 (amended): ordering 5 Sneakers with stock 2 fails with
InsufficientStock naming the title and leaves the store unchanged. -/
theorem c3_insufficient_stock_witness :
    (create_order c3wreq c3st).1 = .error (.insufficientStock "Sneakers") ∧
    (create_order c3wreq c3st).2 = c3st := by
  have h := c3_insufficient_stock c3wreq c3st "Sneakers"
  have h1 : (create_order c3wreq c3st).1 = .error (.insufficientStock "Sneakers") :=
    h.1.mpr ⟨[], c3item2, [], pidF, c3prod, rfl, by simp, by decide,
      by simp [findProduct, lookupFirst, c3st], Or.inr (by norm_num [c3prod, c3item2]), rfl⟩
  exact ⟨h1, h.2 h1⟩

/-- Claim C4: each sanitized line item snapshots the referenced product's
current price/title/image (client-supplied values are never used), and two
requests that agree on everything except the client-supplied item
price/title/image fields produce identical results. -/
theorem c4_price_tampering (req : Order) (st : Store) (o : Order) (st' : Store)
    (h : create_order req st = (.ok o, st')) :
    List.Forall₂ (fun rit sit => ∃ k prod, parseObjectId rit.product_id = some k ∧
        findProduct st k = some prod ∧ sit.price = prod.price ∧ sit.title = prod.title ∧
        sit.image = prod.image ∧ sit.quantity = rit.quantity ∧ sit.product_id = k)
      req.items o.items ∧
    (∀ req2 : Order, req2.customer_name = req.customer_name →
      req2.customer_email = req.customer_email →
      req2.customer_address = req.customer_address →
      req2.shipping = req.shipping →
      List.Forall₂ (fun a b => a.product_id = b.product_id ∧ a.quantity = b.quantity)
        req.items req2.items →
      create_order req2 st = create_order req st) := by
  constructor
  · refine ((create_order_ok h).1).imp ?_
    rintro rit sit ⟨k, prod, hp, hf, _, _, rfl⟩
    exact ⟨k, prod, hp, hf, rfl, rfl, rfl, rfl, rfl⟩
  · intro req2 hn he ha hs hF
    exact create_order_congr st req req2 hn he ha hs hF

/-- Witness for C4: tampering with the item price/title/image in the request
does not change the outcome. -/
theorem c4_price_tampering_witness :
    create_order req0v st0 = create_order req0 st0 :=
  (c4_price_tampering req0 st0 sampleOrder sampleStore1 sample_run).2 req0v
    rfl rfl rfl rfl (by simp [req0, req0v, reqItem, reqItemV])

def c6st : Store := { products := [], orders := [] }

def c6item1 : OrderItem :=
  { product_id := "zz", title := "Junk", price := 1, quantity := 1, image := none }

def c6item2 : OrderItem :=
  { product_id := pidE, title := "Junk", price := 1, quantity := 1, image := none }

def c6req : Order :=
  { customer_name := "Fay", customer_email := "fay@example.com",
    customer_address := "6 Gum Blvd", items := [c6item1, c6item2],
    subtotal := 0, shipping := 0, total := 0, status := "new" }

/-- Claim C6, as stated, is false: this request contains the well-formed
absent identifier pidE (second item), yet the operation fails with
InvalidProductId for the malformed first identifier "zz", not with
ProductNotFound naming pidE. -/
theorem c6_counterexample :
    create_order c6req c6st = (.error (.invalidProductId "zz"), c6st) ∧
    c6req.items = [c6item1, c6item2] ∧ c6item2.product_id = pidE ∧
    parseObjectId pidE = some pidE ∧ findProduct c6st pidE = none ∧
    Err.invalidProductId "zz" ≠ Err.productNotFound pidE := by
  refine ⟨?_, rfl, rfl, by decide, rfl, by simp⟩
  have hzz : parseObjectId "zz" = none := by decide
  norm_num [create_order, processItems, hzz, findProduct, lookupFirst,
    c6req, c6st, c6item1, List.cons_ne_nil]

/-- Claim C6 (amended): if every item before a given item validates and that
item's identifier is well-formed but matches no product, the operation fails
with ProductNotFound naming that identifier and performs no store writes. -/
theorem c6_product_not_found (req : Order) (st : Store) (pre : List OrderItem)
    (it : OrderItem) (post : List OrderItem) (k : String)
    (hitems : req.items = pre ++ it :: post) (hpre : ∀ p ∈ pre, itemOK st p)
    (hp : parseObjectId it.product_id = some k) (hf : findProduct st k = none) :
    create_order req st = (.error (.productNotFound it.product_id), st) :=
  (create_order_error_at hitems hpre).2.1 k hp hf

def c6wreq : Order :=
  { customer_name := "Fay", customer_email := "fay@example.com",
    customer_address := "6 Gum Blvd", items := [c6item2],
    subtotal := 0, shipping := 0, total := 0, status := "new" }

/-- Witness for C6 (amended). -/
theorem c6_product_not_found_witness :
    create_order c6wreq c6st = (.error (.productNotFound pidE), c6st) :=
  c6_product_not_found c6wreq c6st [] c6item2 [] pidE rfl (by simp) (by decide) rfl

/-- Claim C7: a malformed identifier fails with the 400 InvalidIdentifier
error (never NotFound), a well-formed absent one fails with the 404 NotFound
error, both for GET /api/products/{id} and for the per-item lookup during
order placement; the lookup itself writes nothing (the store is returned
unchanged on these failures). -/
theorem c7_lookup_errors (s : String) (st : Store) :
    (get_product s st = .error .invalidIdPlain ↔ parseObjectId s = none) ∧
    (get_product s st = .error .notFoundPlain ↔
      ∃ k, parseObjectId s = some k ∧ findProduct st k = none) ∧
    Err.invalidIdPlain.status = 400 ∧ Err.notFoundPlain.status = 404 ∧
    (∀ (req : Order) (pre : List OrderItem) (it : OrderItem) (post : List OrderItem),
      req.items = pre ++ it :: post → (∀ p ∈ pre, itemOK st p) →
      (parseObjectId it.product_id = none →
        create_order req st = (.error (.invalidProductId it.product_id), st)) ∧
      (∀ k, parseObjectId it.product_id = some k → findProduct st k = none →
        create_order req st = (.error (.productNotFound it.product_id), st))) := by
  refine ⟨?_, ?_, rfl, rfl, ?_⟩
  · cases hp : parseObjectId s with
    | none => simp [get_product, hp]
    | some k =>
      cases hf : findProduct st k with
      | none => simp [get_product, hp, hf]
      | some doc => simp [get_product, hp, hf]
  · cases hp : parseObjectId s with
    | none => simp [get_product, hp]
    | some k =>
      cases hf : findProduct st k with
      | none => simp [get_product, hp, hf]
      | some doc => simp [get_product, hp, hf]
  · intro req pre it post hitems hpre
    exact ⟨(create_order_error_at hitems hpre).1,
      (create_order_error_at hitems hpre).2.1⟩

/-- Witness for C7. -/
theorem c7_lookup_errors_witness :
    get_product "zz" st0 = .error .invalidIdPlain ∧
    get_product pidE st0 = .error .notFoundPlain :=
  ⟨(c7_lookup_errors "zz" st0).1.mpr (by decide),
   (c7_lookup_errors pidE st0).2.1.mpr
     ⟨pidE, by decide, by simp [findProduct, lookupFirst, st0, pidA, pidE]⟩⟩

/-- Claim C8: the shipping cost stored on the order is round2 of the raw
shipping input, hence non-negative (the input is non-negative because
pydantic validation rejects negative shipping with HTTP 422) and has at most
two decimal places. -/
theorem c8_shipping (req : Order) (st : Store) (o : Order) (st' : Store)
    (h : create_order req st = (.ok o, st')) (hv : req.schemaOK) :
    o.shipping = round2 req.shipping ∧ 0 ≤ o.shipping ∧ (100 * o.shipping).den = 1 ∧
    (∀ r : Order, r.shipping < 0 → ¬ r.schemaOK) := by
  obtain ⟨-, -, -, -, -, h6, -, -, -, -⟩ := create_order_ok h
  refine ⟨h6, ?_, ?_, ?_⟩
  · rw [h6]
    exact round2_nonneg hv.2.2.1
  · rw [h6]
    exact round2_two_decimals _
  · rintro r hneg ⟨-, -, hge, -⟩
    exact absurd hge (not_le.mpr hneg)

/-- Witness for C8 at the spec's worked example. -/
theorem c8_shipping_witness :
    sampleOrder.shipping = round2 req0.shipping ∧ 0 ≤ sampleOrder.shipping ∧
    (100 * sampleOrder.shipping).den = 1 ∧
    (∀ r : Order, r.shipping < 0 → ¬ r.schemaOK) :=
  c8_shipping req0 st0 sampleOrder sampleStore1 sample_run
    (by constructor
        · intro it hm
          simp only [req0, List.mem_singleton] at hm
          subst hm
          constructor <;> norm_num [reqItem, OrderItem.schemaOK]
        · norm_num [req0])

/-- Claim C9: serialization maps each entry pointwise; the `_id` key is
renamed to `id` with its value stringified (for an ObjectId value, its hex
string), date/time values are replaced by their ISO text, and every other
entry passes through unchanged. -/
theorem c9_serialization (doc : List (String × BVal)) :
    serialize_doc doc = doc.map serializeEntry ∧
    (∀ k v, (k, v) ∈ doc → k ≠ "_id" → hasIsoformat v = false →
      (k, v) ∈ serialize_doc doc) ∧
    (∀ v, ("_id", v) ∈ doc → ("id", BVal.str (pyStr v)) ∈ serialize_doc doc) ∧
    (∀ hex, ("_id", BVal.oidV hex) ∈ doc → ("id", BVal.str hex) ∈ serialize_doc doc) ∧
    (∀ k iso, (k, BVal.dtV iso) ∈ doc → k ≠ "_id" →
      (k, BVal.str iso) ∈ serialize_doc doc) := by
  refine ⟨serialize_doc_eq_map doc, ?_, ?_, ?_, ?_⟩
  · intro k v hm hk hiso
    have he : serializeEntry (k, v) = (k, v) := by simp [serializeEntry, hk, hiso]
    rw [serialize_doc_eq_map]
    exact he ▸ List.mem_map_of_mem serializeEntry hm
  · intro v hm
    have he : serializeEntry ("_id", v) = ("id", .str (pyStr v)) := by
      simp [serializeEntry]
    rw [serialize_doc_eq_map]
    exact he ▸ List.mem_map_of_mem serializeEntry hm
  · intro hex hm
    have he : serializeEntry ("_id", .oidV hex) = ("id", .str hex) := by
      simp [serializeEntry, pyStr]
    rw [serialize_doc_eq_map]
    exact he ▸ List.mem_map_of_mem serializeEntry hm
  · intro k iso hm hk
    have he : serializeEntry (k, .dtV iso) = (k, .str iso) := by
      simp [serializeEntry, hk, hasIsoformat, isoformat]
    rw [serialize_doc_eq_map]
    exact he ▸ List.mem_map_of_mem serializeEntry hm

def c9oid : String := "abc123abc123abc123abc123"

def c9doc : List (String × BVal) :=
  [("_id", .oidV c9oid), ("created_at", .dtV "2024-01-01T00:00:00"),
   ("title", .str "Classic Tee")]

/-- Witness for C9. -/
theorem c9_serialization_witness :
    ("id", BVal.str c9oid) ∈ serialize_doc c9doc ∧
    ("created_at", BVal.str "2024-01-01T00:00:00") ∈ serialize_doc c9doc ∧
    ("title", BVal.str "Classic Tee") ∈ serialize_doc c9doc :=
  ⟨(c9_serialization c9doc).2.2.2.1 c9oid (by simp [c9doc]),
   (c9_serialization c9doc).2.2.2.2 "created_at" "2024-01-01T00:00:00"
     (by simp [c9doc]) (by decide),
   (c9_serialization c9doc).2.1 "title" (BVal.str "Classic Tee")
     (by simp [c9doc]) (by decide) rfl⟩

/-- Claim C10: the client-supplied subtotal, total and status fields of the
request are ignored — changing them changes nothing — and the persisted
order's status is "processing" with server-computed subtotal and total. -/
theorem c10_server_fields (req : Order) (st : Store) (a b : ℚ) (c : String) :
    create_order { req with subtotal := a, total := b, status := c } st =
      create_order req st ∧
    (∀ (o : Order) (st' : Store), create_order req st = (.ok o, st') →
      o.status = "processing" ∧ o.subtotal = round2 (itemsTotal o.items) ∧
      o.total = round2 (itemsTotal o.items + req.shipping)) := by
  constructor
  · exact create_order_congr st req { req with subtotal := a, total := b, status := c }
      rfl rfl rfl rfl (List.forall₂_same.mpr (fun x _ => ⟨rfl, rfl⟩))
  · intro o st' h
    obtain ⟨-, -, -, -, h5, -, h7, h8, -, -⟩ := create_order_ok h
    exact ⟨h8, h5, h7⟩

/-- Witness for C10. -/
theorem c10_server_fields_witness :
    create_order { req0 with subtotal := 999, total := 12, status := "shipped" } st0 =
      create_order req0 st0 ∧
    sampleOrder.status = "processing" :=
  ⟨(c10_server_fields req0 st0 999 12 "shipped").1,
   ((c10_server_fields req0 st0 999 12 "shipped").2 sampleOrder sampleStore1
     sample_run).1⟩

end ECom
